import Mathlib

/-!
Verification of the `ionic-dnd` drag-and-drop engine.

This file gives a shallow embedding, in Lean 4, of the parts of the
`ionic-dnd` TypeScript library that the verified properties talk about:

* the list-reordering utility `arrayMove` (SortableContainer module);
* the drag-session state machine of `DragDropProvider`
  (`startDrag` / `updateDrag` / `endDrag`, the geometry registry
  `registerItem` / `unregisterItem`, and the hit test
  `findItemAtPosition`);
* the displacement computation of `useSortable` for non-dragged items;
* the per-edge speed computation of `useAutoScroll.calculateScrollSpeed`.

JavaScript numbers are embedded as rationals (`ℚ`): every computation the
properties mention (comparisons, sums, one division by the threshold) is
exact on the inputs considered, so rational arithmetic coincides with the
IEEE semantics there. Indices are embedded as `Int`, identifiers as
`String`. The JS `Map` that backs the geometry registry is embedded as an
association list in insertion order, matching `Map` iteration order.
-/

namespace IonicDnd

/-- A 2D point in viewport coordinates (`Position` in the types module). -/
structure Position where
  x : ℚ
  y : ℚ
deriving DecidableEq, Repr

/-- A bounding rectangle as returned by `getBoundingClientRect`. -/
structure Rect where
  left : ℚ
  top : ℚ
  right : ℚ
  bottom : ℚ
deriving DecidableEq, Repr

/-!
## `arrayMove` (SortableContainer module)

```js
export function arrayMove(array, fromIndex, toIndex) {
  const newArray = [...array];
  const [removed] = newArray.splice(fromIndex, 1);
  newArray.splice(toIndex, 0, removed);
  return newArray;
}
```

`splice(fromIndex, 1)` removes the element at `fromIndex`;
`splice(toIndex, 0, removed)` reinserts it at `toIndex`. For an
out-of-range `fromIndex` the JS function would reinsert `undefined`,
which is not representable over `List α`; the embedding returns the list
unchanged in that case, and the verified properties are stated for
in-range indices only. The JS function copies its input, so the input
array is unmodified; over `List` this is intrinsic.
-/

/-- Shallow embedding of `arrayMove`: remove the element at `fromIndex`,
reinsert it at `toIndex`. -/
def arrayMove {α : Type} (array : List α) (fromIndex toIndex : Nat) : List α :=
  match array[fromIndex]? with
  | some removed => (array.eraseIdx fromIndex).insertIdx toIndex removed
  | none => array

/-!
## The drag-session state machine (`DragDropProvider` module)

The provider keeps a `DragState` React state value, a `Map` of registered
items (`itemsRef`), and an `initialIndexRef`. The modelled operations are
`registerItem`, `unregisterItem`, `findItemAtPosition`, `startDrag`,
`updateDrag` and `endDrag`, each translated clause by clause from the
source. Haptic feedback, the auto-scroll side channel and the accumulated
scroll offset do not affect any of the verified properties and are
omitted from the engine state; the auto-scroll speed computation itself
is embedded separately below.
-/

/-- The `lockAxis` configuration value (`"x" | "y" | null`). -/
inductive Axis where
  | x
  | y
deriving DecidableEq, Repr

/-- The configuration fields of `DragDropContextConfig` that the modelled
operations read. -/
structure DragConfig where
  lockAxis : Option Axis
deriving DecidableEq, Repr

/-- The `DragState` record of the provider. -/
structure DragState where
  isDragging : Bool
  draggedId : Option String
  draggedIndex : Option Int
  overIndex : Option Int
  initialPosition : Option Position
  currentPosition : Option Position
  offset : Option Position
deriving DecidableEq, Repr

/-- The per-item record held in `itemsRef`: the logical index and the live
bounding rectangle of the element (the element itself is reduced to the
geometry the modelled code reads from it). -/
structure ItemRec where
  index : Int
  rect : Rect
deriving DecidableEq, Repr

/-- The geometry registry: a JS `Map` from id to record, embedded as an
association list in insertion order (`Map` iteration order). -/
abbrev Registry : Type := List (String × ItemRec)

/-- Lifecycle notifications emitted to the `onDragStart` / `onDragMove` /
`onDragOver` / `onDragEnd` callbacks. -/
inductive DragEvent where
  | dragStart (id : String) (index : Int)
  | dragMove (id : String) (index : Int) (position delta : Position)
  | dragOver (id : String) (index : Int) (overIndex : Int) (overItemId : String)
  | dragEnd (id : String) (fromIndex toIndex : Int) (cancelled : Bool)
deriving DecidableEq, Repr

/-- Whether a notification is a drag-over notification. -/
def DragEvent.isDragOver : DragEvent → Bool
  | DragEvent.dragOver _ _ _ _ => true
  | _ => false

/-- The mutable provider state the modelled operations touch: the React
`DragState`, the `itemsRef` registry and the `initialIndexRef`. -/
structure Engine where
  state : DragState
  items : Registry
  initialIndexRef : Option Int
deriving DecidableEq, Repr

/-- The idle `DragState` (the initial `useState` value, also restored by
`endDrag`). -/
def idleState : DragState :=
  { isDragging := false
    draggedId := none
    draggedIndex := none
    overIndex := none
    initialPosition := none
    currentPosition := none
    offset := none }

/-- The provider at mount: idle state, empty registry, cleared ref. -/
def initEngine : Engine :=
  { state := idleState, items := [], initialIndexRef := none }

/-- `registerItem`: `itemsRef.current.set(id, {index, element})`. A JS `Map`
replaces an existing key in place (keeping its insertion position) and
appends a new key at the end. -/
def registerItem (items : Registry) (id : String) (r : ItemRec) : Registry :=
  if (items.map Prod.fst).contains id then
    items.map fun p => if p.1 = id then (id, r) else p
  else
    items ++ [(id, r)]

/-- `unregisterItem`: `itemsRef.current.delete(id)`. -/
def unregisterItem (items : Registry) (id : String) : Registry :=
  items.filter fun p => p.1 ≠ id

/-- Whether a position lies inside a client rectangle. The source checks
`position.x >= rect.left && position.x <= rect.right && position.y >=
rect.top && position.y <= rect.bottom`: closed intervals on all four
edges. -/
def containsPos (r : Rect) (p : Position) : Bool :=
  decide (r.left ≤ p.x) && decide (p.x ≤ r.right) &&
    decide (r.top ≤ p.y) && decide (p.y ≤ r.bottom)

/-- `findItemAtPosition`: iterate the registry in insertion order, skip the
entry whose id equals `state.draggedId`, and return the id and index of
the first entry whose rectangle contains the position; `null` when none
does. -/
def findItemAtPosition (draggedId : Option String) (items : Registry)
    (position : Position) : Option (String × Int) :=
  match items with
  | [] => none
  | (id, r) :: rest =>
    if some id = draggedId then findItemAtPosition draggedId rest position
    else if containsPos r.rect position then some (id, r.index)
    else findItemAtPosition draggedId rest position

/-- `startDrag(id, index, position, element)`: record the element and index
in the refs, compute the pointer offset within the element from its
bounding rectangle, overwrite the whole `DragState` in one update, and
emit a drag-start notification. The source has no guard on
`state.isDragging`; the embedding faithfully keeps that absence. -/
def startDrag (e : Engine) (id : String) (index : Int) (position : Position)
    (rect : Rect) : Engine × List DragEvent :=
  ({ e with
      state :=
        { isDragging := true
          draggedId := some id
          draggedIndex := some index
          overIndex := some index
          initialPosition := some position
          currentPosition := some position
          offset := some ⟨position.x - rect.left, position.y - rect.top⟩ }
      initialIndexRef := some index },
    [DragEvent.dragStart id index])

/-- The axis-lock step of `updateDrag`: with `lockAxis === "x"` the final
position keeps the pointer x and pins y to the initial position; with
`"y"` it keeps the pointer y and pins x. No lock, or a missing initial
position, leaves the position unchanged. -/
def applyLockAxis (lockAxis : Option Axis) (initialPosition : Option Position)
    (position : Position) : Position :=
  match lockAxis, initialPosition with
  | some Axis.x, some ip => ⟨position.x, ip.y⟩
  | some Axis.y, some ip => ⟨ip.x, position.y⟩
  | _, _ => position

/-- `updateDrag(position)`: no-op unless dragging; apply the axis lock;
hit-test the locked position; keep the previous `overIndex` when the hit
test returns `null`; store the locked position and the new `overIndex`;
emit a drag-move notification, and a drag-over notification exactly when
the hit test found an item. (The auto-scroll update and the haptic pulse
on an index change have no effect on the modelled state. The non-null
assertions on `draggedId` and `draggedIndex` in the source become `getD`
defaults; on every dragging state they are populated.) -/
def updateDrag (cfg : DragConfig) (e : Engine) (position : Position) :
    Engine × List DragEvent :=
  if e.state.isDragging = false then (e, [])
  else
    let finalPosition := applyLockAxis cfg.lockAxis e.state.initialPosition position
    let overItem := findItemAtPosition e.state.draggedId e.items finalPosition
    let newOverIndex :=
      match overItem with
      | some oi => some oi.2
      | none => e.state.overIndex
    let delta :=
      match e.state.initialPosition with
      | some ip => Position.mk (finalPosition.x - ip.x) (finalPosition.y - ip.y)
      | none => ⟨0, 0⟩
    let moveEvent := DragEvent.dragMove (e.state.draggedId.getD "")
      (e.state.draggedIndex.getD 0) finalPosition delta
    let overEvents :=
      match overItem with
      | some oi => [DragEvent.dragOver (e.state.draggedId.getD "")
          (e.state.draggedIndex.getD 0) oi.2 oi.1]
      | none => []
    ({ e with
        state :=
          { e.state with
              currentPosition := some finalPosition
              overIndex := newOverIndex } },
      moveEvent :: overEvents)

/-- `endDrag(cancelled = false)`: no-op unless dragging; compute
`fromIndex = initialIndexRef ?? draggedIndex ?? 0` and
`toIndex = cancelled ? fromIndex : (overIndex ?? fromIndex)`; emit one
drag-end notification; reset the whole `DragState` to idle and clear the
refs in the same step. All cancel paths of the provider (the global
pointercancel and touchcancel listeners, the Escape key handler, and a
programmatic call) invoke this with `cancelled = true`; the pointerup and
touchend listeners invoke it with `cancelled = false`. -/
def endDrag (e : Engine) (cancelled : Bool) : Engine × List DragEvent :=
  if e.state.isDragging = false then (e, [])
  else
    let fromIndex := e.initialIndexRef.getD (e.state.draggedIndex.getD 0)
    let toIndex := if cancelled then fromIndex else e.state.overIndex.getD fromIndex
    ({ e with state := idleState, initialIndexRef := none },
      [DragEvent.dragEnd (e.state.draggedId.getD "") fromIndex toIndex cancelled])

/-- One externally triggered operation on the provider: the registry
callbacks, `startDrag`, `updateDrag`, and `endDrag`. -/
inductive EngineAct where
  | register (id : String) (r : ItemRec)
  | unregister (id : String)
  | start (id : String) (index : Int) (position : Position) (rect : Rect)
  | update (position : Position)
  | finish (cancelled : Bool)
deriving DecidableEq, Repr

/-- Apply one operation to the engine, discarding the emitted events. -/
def stepEngine (cfg : DragConfig) (e : Engine) : EngineAct → Engine
  | EngineAct.register id r => { e with items := registerItem e.items id r }
  | EngineAct.unregister id => { e with items := unregisterItem e.items id }
  | EngineAct.start id i p r => (startDrag e id i p r).1
  | EngineAct.update p => (updateDrag cfg e p).1
  | EngineAct.finish c => (endDrag e c).1

/-- The engine states reachable from the freshly mounted provider by any
sequence of operations. -/
inductive Reachable (cfg : DragConfig) : Engine → Prop where
  | init : Reachable cfg initEngine
  | step {e : Engine} (h : Reachable cfg e) (a : EngineAct) :
      Reachable cfg (stepEngine cfg e a)

/-!
## Displacement of non-dragged items (`useSortable` module)

```js
const draggedIndex = state.draggedIndex!;
const overIndex = state.overIndex ?? draggedIndex;
let shouldDisplace = false;
let direction = 0;
if (draggedIndex < overIndex) {
  if (index > draggedIndex && index <= overIndex) { shouldDisplace = true; direction = -1; }
} else if (draggedIndex > overIndex) {
  if (index >= overIndex && index < draggedIndex) { shouldDisplace = true; direction = 1; }
}
if (shouldDisplace && elementRef.current) {
  const height = draggedElement.offsetHeight;
  setLocalTransform({ x: 0, y: direction * (height + 16) }); // 16px for gap
} else { setLocalTransform(null); }
```

The effect only runs for a non-dragged item (`isAnotherDragging`), and the
dragged element is looked up in the registry; its `offsetHeight` becomes
the `draggedHeight` parameter here.
-/

/-- The displacement direction decision of the `useSortable` effect. -/
def displacementDir (draggedIndex overIndex index : Int) : Int :=
  if draggedIndex < overIndex then
    if draggedIndex < index ∧ index ≤ overIndex then -1 else 0
  else if overIndex < draggedIndex then
    if overIndex ≤ index ∧ index < draggedIndex then 1 else 0
  else 0

/-- The local transform set on a non-dragged item: `overIndex` defaults to
`draggedIndex` when null, and a displaced item is shifted by one
dragged-item extent, the dragged element height plus the 16px layout
gap. -/
def localTransform (draggedIndex : Int) (overIndex : Option Int) (index : Int)
    (draggedHeight : ℚ) : Option Position :=
  let ov := overIndex.getD draggedIndex
  let dir := displacementDir draggedIndex ov index
  if dir = 0 then none else some ⟨0, (dir : ℚ) * (draggedHeight + 16)⟩

/-!
## Auto-scroll speed (`useAutoScroll` module)

`calculateScrollSpeed` evaluates, for each of the four edges, the same
branch shape:

```js
const distanceFromTop = position.y - visibleTop;
if (distanceFromTop < threshold && canScrollUp) {
  const intensity = distanceFromTop <= 0 ? 1 : 1 - (distanceFromTop / threshold);
  speedY = -Math.min(maxSpeed, Math.max(0.1, intensity) * maxSpeed * acceleration);
}
```

`edgeScrollSpeed` is that common branch: the unsigned magnitude
contributed by one edge, zero when the edge does not trigger. The full
`calculateScrollSpeed` combines the four edges with the same assignment
order as the source (the bottom branch overwrites the top branch on the y
axis, the right branch overwrites the left branch on the x axis). -/

/-- The auto-scroll configuration (`AutoScrollConfig`). -/
structure AutoScrollCfg where
  enabled : Bool
  threshold : ℚ
  maxSpeed : ℚ
  acceleration : ℚ
deriving DecidableEq, Repr

/-- The scroll-container geometry read by `calculateScrollSpeed`: the
bounding rectangle, the viewport size, and the scroll offsets/extents. -/
structure ScrollMetrics where
  rect : Rect
  innerWidth : ℚ
  innerHeight : ℚ
  scrollTop : ℚ
  scrollHeight : ℚ
  clientHeight : ℚ
  scrollLeft : ℚ
  scrollWidth : ℚ
  clientWidth : ℚ
deriving DecidableEq, Repr

/-- The per-edge speed magnitude of `calculateScrollSpeed`: zero unless the
pointer is within `threshold` of the edge and the container can still
scroll toward that edge; otherwise
`min(maxSpeed, max(0.1, intensity) * maxSpeed * acceleration)` with
`intensity = 1` at nonpositive distance and `1 - distance / threshold`
beyond. -/
def edgeScrollSpeed (threshold maxSpeed acceleration : ℚ) (canScroll : Bool)
    (distance : ℚ) : ℚ :=
  if distance < threshold ∧ canScroll = true then
    min maxSpeed
      (max (1 / 10) (if distance ≤ 0 then 1 else 1 - distance / threshold) *
        maxSpeed * acceleration)
  else 0

/-- `calculateScrollSpeed`, combining the four edge branches in source
order; each axis keeps the later branch when both of its edges trigger. -/
def calculateScrollSpeed (cfg : AutoScrollCfg) (m : ScrollMetrics)
    (p : Position) : Position :=
  if cfg.enabled = false then ⟨0, 0⟩
  else
    let visibleTop := max 0 m.rect.top
    let visibleBottom := min m.innerHeight m.rect.bottom
    let visibleLeft := max 0 m.rect.left
    let visibleRight := min m.innerWidth m.rect.right
    let canScrollUp := decide (0 < m.scrollTop)
    let canScrollDown := decide (m.scrollTop < m.scrollHeight - m.clientHeight)
    let canScrollLeft := decide (0 < m.scrollLeft)
    let canScrollRight := decide (m.scrollLeft < m.scrollWidth - m.clientWidth)
    let distanceFromTop := p.y - visibleTop
    let distanceFromBottom := visibleBottom - p.y
    let distanceFromLeft := p.x - visibleLeft
    let distanceFromRight := visibleRight - p.x
    let speedY :=
      if distanceFromBottom < cfg.threshold ∧ canScrollDown = true then
        edgeScrollSpeed cfg.threshold cfg.maxSpeed cfg.acceleration canScrollDown
          distanceFromBottom
      else
        -(edgeScrollSpeed cfg.threshold cfg.maxSpeed cfg.acceleration canScrollUp
          distanceFromTop)
    let speedX :=
      if distanceFromRight < cfg.threshold ∧ canScrollRight = true then
        edgeScrollSpeed cfg.threshold cfg.maxSpeed cfg.acceleration canScrollRight
          distanceFromRight
      else
        -(edgeScrollSpeed cfg.threshold cfg.maxSpeed cfg.acceleration canScrollLeft
          distanceFromLeft)
    ⟨speedX, speedY⟩

/-!
## Concrete fixtures

Three items in a vertical list, 50px tall with a 10px gap, used by the
closed witnesses and counterexamples below.
-/

/-- Bounds of item `a` (index 0). -/
def rectA : Rect := ⟨0, 0, 100, 50⟩

/-- Bounds of item `b` (index 1). -/
def rectB : Rect := ⟨0, 60, 100, 110⟩

/-- Bounds of item `c` (index 2). -/
def rectC : Rect := ⟨0, 120, 100, 170⟩

/-- A registry holding the three demo items. -/
def demoRegistry : Registry := [("a", ⟨0, rectA⟩), ("b", ⟨1, rectB⟩), ("c", ⟨2, rectC⟩)]

/-- A mid-gesture engine: item `a` has been picked up at `(50, 25)` and the
pointer has moved over item `c`, so `overIndex` is 2. -/
def demoDragging : Engine :=
  { state :=
      { isDragging := true
        draggedId := some "a"
        draggedIndex := some 0
        overIndex := some 2
        initialPosition := some ⟨50, 25⟩
        currentPosition := some ⟨50, 130⟩
        offset := some ⟨50, 25⟩ }
    items := demoRegistry
    initialIndexRef := some 0 }

/-- A mid-gesture engine whose pointer is already over item `b`
(`overIndex = 1`). -/
def demoOverB : Engine :=
  { state :=
      { isDragging := true
        draggedId := some "a"
        draggedIndex := some 0
        overIndex := some 1
        initialPosition := some ⟨50, 25⟩
        currentPosition := some ⟨50, 80⟩
        offset := some ⟨50, 25⟩ }
    items := demoRegistry
    initialIndexRef := some 0 }

/-- The registry populated through `registerItem`, as the mounted items
would do. -/
def demoMounted : Engine :=
  { initEngine with
      items := registerItem (registerItem (registerItem initEngine.items
        "a" ⟨0, rectA⟩) "b" ⟨1, rectB⟩) "c" ⟨2, rectC⟩ }

/-- The demo list right after `startDrag` on item `a`. -/
def demoStarted : Engine := (startDrag demoMounted "a" 0 ⟨50, 25⟩ rectA).1

/-- `demoStarted` after a pointer move to `(50, 130)`, inside item `c`. -/
def demoMoved : Engine := (updateDrag ⟨none⟩ demoStarted ⟨50, 130⟩).1

/-- `demoMoved` after the dragged record is unregistered mid-gesture. -/
def demoVanished : Engine := { demoMoved with items := unregisterItem demoMoved.items "a" }

/-!
## Theorems

### C10: `arrayMove`
-/

/-- Inserting at an in-range index is a permutation with consing. -/
theorem insertIdx_perm_cons {α : Type} (x : α) :
    ∀ (n : Nat) (l : List α), n ≤ l.length → (l.insertIdx n x).Perm (x :: l) := by
  intro n
  induction n with
  | zero => intro l _; simp
  | succ n ih =>
    intro l hl
    cases l with
    | nil => simp at hl
    | cons a l =>
      simp only [List.insertIdx_succ_cons]
      exact (List.Perm.cons a (ih l (Nat.le_of_succ_le_succ hl))).trans
        (List.Perm.swap x a l)

/-- Consing the removed element back in front of `eraseIdx` is a permutation
of the original list. -/
theorem cons_getElem_eraseIdx_perm {α : Type} :
    ∀ (l : List α) (i : Nat) (hi : i < l.length), (l[i] :: l.eraseIdx i).Perm l := by
  intro l
  induction l with
  | nil => intro i hi; simp at hi
  | cons a l ih =>
    intro i hi
    cases i with
    | zero => simp
    | succ i =>
      simp only [List.getElem_cons_succ, List.eraseIdx_cons_succ]
      exact (List.Perm.swap a (a :: l)[i + 1] (l.eraseIdx i)).trans
        (List.Perm.cons a (ih i (Nat.lt_of_succ_lt_succ hi)))

/-- Reinserting the erased element at the erased position is the identity. -/
theorem insertIdx_getElem_eraseIdx {α : Type} :
    ∀ (l : List α) (i : Nat) (hi : i < l.length), (l.eraseIdx i).insertIdx i l[i] = l := by
  intro l
  induction l with
  | nil => intro i hi; simp at hi
  | cons a l ih =>
    intro i hi
    cases i with
    | zero => simp
    | succ i =>
      simp only [List.eraseIdx_cons_succ, List.getElem_cons_succ,
        List.insertIdx_succ_cons]
      rw [ih i (Nat.lt_of_succ_lt_succ hi)]

/-- C10: for in-range indices `i` and `j`, `arrayMove a i j` has the same
length as `a`, is a permutation of `a`, places the element formerly at
index `i` at index `j`, preserves the relative order of all other
elements (removing the moved element from the result gives exactly `a`
with the element at `i` removed), and `arrayMove a i i` equals `a`
element-wise. The embedding is a pure function on `List`, so the input is
unmodified. -/
theorem arrayMove_spec {α : Type} (a : List α) (i j : Nat)
    (hi : i < a.length) (hj : j < a.length) :
    (arrayMove a i j).length = a.length ∧
    (arrayMove a i j).Perm a ∧
    (arrayMove a i j)[j]? = a[i]? ∧
    (arrayMove a i j).eraseIdx j = a.eraseIdx i ∧
    arrayMove a i i = a := by
  have hget : a[i]? = some a[i] := List.getElem?_eq_getElem hi
  have hmove : arrayMove a i j = (a.eraseIdx i).insertIdx j a[i] := by
    unfold arrayMove; rw [hget]
  have hlen : (a.eraseIdx i).length = a.length - 1 :=
    List.length_eraseIdx_of_lt hi
  have hj' : j ≤ (a.eraseIdx i).length := by omega
  refine ⟨?_, ?_, ?_, ?_, ?_⟩
  · rw [hmove, List.length_insertIdx j _ hj', hlen]; omega
  · rw [hmove]
    exact (insertIdx_perm_cons a[i] j _ hj').trans (cons_getElem_eraseIdx_perm a i hi)
  · rw [hmove, hget]
    have hjlen : j < ((a.eraseIdx i).insertIdx j a[i]).length := by
      rw [List.length_insertIdx j _ hj']; omega
    rw [List.getElem?_eq_getElem hjlen]
    exact congrArg some (List.getElem_insertIdx_self _ _ _ hj')
  · rw [hmove, List.eraseIdx_insertIdx]
  · rw [show arrayMove a i i = (a.eraseIdx i).insertIdx i a[i] by unfold arrayMove; rw [hget]]
    exact insertIdx_getElem_eraseIdx a i hi

/-- Witness for C10 at a concrete input: moving index 1 of `[10, 20, 30, 40]`
to index 3, all listed properties hold. -/
theorem arrayMove_spec_witness :
    (1 < ([10, 20, 30, 40] : List Nat).length ∧ 3 < ([10, 20, 30, 40] : List Nat).length) ∧
    ((arrayMove [10, 20, 30, 40] 1 3).length = ([10, 20, 30, 40] : List Nat).length ∧
      (arrayMove ([10, 20, 30, 40] : List Nat) 1 3).Perm [10, 20, 30, 40] ∧
      (arrayMove ([10, 20, 30, 40] : List Nat) 1 3)[3]? = ([10, 20, 30, 40] : List Nat)[1]? ∧
      (arrayMove ([10, 20, 30, 40] : List Nat) 1 3).eraseIdx 3 =
        ([10, 20, 30, 40] : List Nat).eraseIdx 1 ∧
      arrayMove ([10, 20, 30, 40] : List Nat) 1 1 = [10, 20, 30, 40]) :=
  ⟨⟨by decide, by decide⟩,
    arrayMove_spec [10, 20, 30, 40] 1 3 (by decide) (by decide)⟩

/-!
### C1: cancellation invariant of `endDrag`
-/

/-- C1: on any active session, whatever the last observed `overIndex`,
`endDrag` with `cancelled = true` (the pointer-cancel, touch-cancel,
Escape and programmatic cancel paths) emits exactly one drag-end
notification whose `toIndex` equals `fromIndex` and whose `cancelled`
flag is true; the session is idle afterwards and a repeated call emits
nothing. A plain commit (`endDrag` with `cancelled = false`, the
pointer-up path) emits exactly one drag-end whose `cancelled` flag is
false — even when the committed `toIndex` equals `fromIndex`. -/
theorem endDrag_cancel_spec (e : Engine) (h : e.state.isDragging = true) :
    (endDrag e true).2 =
      [DragEvent.dragEnd (e.state.draggedId.getD "")
        (e.initialIndexRef.getD (e.state.draggedIndex.getD 0))
        (e.initialIndexRef.getD (e.state.draggedIndex.getD 0)) true] ∧
    ((endDrag e true).1).state.isDragging = false ∧
    (endDrag ((endDrag e true).1) true).2 = [] ∧
    (endDrag e false).2 =
      [DragEvent.dragEnd (e.state.draggedId.getD "")
        (e.initialIndexRef.getD (e.state.draggedIndex.getD 0))
        (e.state.overIndex.getD (e.initialIndexRef.getD (e.state.draggedIndex.getD 0)))
        false] := by
  refine ⟨?_, ?_, ?_, ?_⟩ <;> simp [endDrag, h, idleState]

/-- Witness for C1 on the concrete mid-gesture engine `demoDragging`
(dragged from index 0, `overIndex = 2`): cancelling yields
`dragEnd "a" 0 0 true`, committing yields `dragEnd "a" 0 2 false`. -/
theorem endDrag_cancel_spec_witness :
    demoDragging.state.isDragging = true ∧
    ((endDrag demoDragging true).2 = [DragEvent.dragEnd "a" 0 0 true] ∧
      ((endDrag demoDragging true).1).state.isDragging = false ∧
      (endDrag ((endDrag demoDragging true).1) true).2 = [] ∧
      (endDrag demoDragging false).2 = [DragEvent.dragEnd "a" 0 2 false]) :=
  ⟨rfl, endDrag_cancel_spec demoDragging rfl⟩

/-!
### C9: `isDragging`, `draggedId` and `draggedIndex` change together
-/

/-- C9: in every reachable engine state, `isDragging` is true exactly when
`draggedId` is non-null and exactly when `draggedIndex` is non-null. Each
transition (`startDrag` sets all three, `endDrag` clears all three,
`updateDrag` and the registry callbacks touch none of them) changes them
in one state update, so no reachable state pairs an active flag with a
missing dragged identity or vice versa. -/
theorem dragState_consistency (cfg : DragConfig) (e : Engine)
    (h : Reachable cfg e) :
    (e.state.isDragging = true ↔ e.state.draggedId ≠ none) ∧
    (e.state.isDragging = true ↔ e.state.draggedIndex ≠ none) := by
  induction h with
  | init => simp [initEngine, idleState]
  | @step e h a ih =>
    cases a with
    | register id r => simpa [stepEngine] using ih
    | unregister id => simpa [stepEngine] using ih
    | start id i p r => simp [stepEngine, startDrag]
    | update p =>
      cases hd : e.state.isDragging with
      | false => simpa [stepEngine, updateDrag, hd] using ih
      | true => simpa [stepEngine, updateDrag, hd] using ih
    | finish c =>
      cases hd : e.state.isDragging with
      | false => simpa [stepEngine, endDrag, hd] using ih
      | true => simp [stepEngine, endDrag, hd, idleState]

/-- Witness for C9 on a concrete reachable state: the engine right after
`startDrag` from the mounted provider. -/
theorem dragState_consistency_witness :
    ((stepEngine ⟨none⟩ initEngine (EngineAct.start "a" 0 ⟨50, 25⟩ rectA)).state.isDragging
        = true ↔
      (stepEngine ⟨none⟩ initEngine
          (EngineAct.start "a" 0 ⟨50, 25⟩ rectA)).state.draggedId ≠ none) ∧
    ((stepEngine ⟨none⟩ initEngine (EngineAct.start "a" 0 ⟨50, 25⟩ rectA)).state.isDragging
        = true ↔
      (stepEngine ⟨none⟩ initEngine
          (EngineAct.start "a" 0 ⟨50, 25⟩ rectA)).state.draggedIndex ≠ none) :=
  dragState_consistency ⟨none⟩ _
    (Reachable.step Reachable.init (EngineAct.start "a" 0 ⟨50, 25⟩ rectA))

/-!
### C4: hit-test containment and `overIndex` retention
-/

/-- C4: containment is closed on all four edges — for bounds
`{left: 0, top: 0, right: 100, bottom: 50}` the point `(100, 50)` is
contained and `(101, 50)` is not; `findItemAtPosition` returns the first
registered item, in insertion order and excluding the dragged id, whose
rectangle contains the position; and when it returns `null`, `updateDrag`
keeps the previous `overIndex` of the session unchanged rather than
clearing it. -/
theorem findItemAtPosition_spec :
    (containsPos ⟨0, 0, 100, 50⟩ ⟨100, 50⟩ = true ∧
      containsPos ⟨0, 0, 100, 50⟩ ⟨101, 50⟩ = false) ∧
    (∀ (d : Option String) (items : Registry) (p : Position),
      findItemAtPosition d items p =
        ((items.filter fun it => !(some it.1 == d)).find?
          fun it => containsPos it.2.rect p).map fun it => (it.1, it.2.index)) ∧
    (∀ (cfg : DragConfig) (e : Engine) (p : Position),
      e.state.isDragging = true →
      findItemAtPosition e.state.draggedId e.items
        (applyLockAxis cfg.lockAxis e.state.initialPosition p) = none →
      ((updateDrag cfg e p).1).state.overIndex = e.state.overIndex) := by
  refine ⟨⟨by decide, by decide⟩, ?_, ?_⟩
  · intro d items p
    induction items with
    | nil => simp [findItemAtPosition]
    | cons hd tl ih =>
      obtain ⟨id, r⟩ := hd
      by_cases hid : some id = d
      · have hb : (!(some id == d)) = false := by simp [hid]
        rw [List.filter_cons]
        simp only [hb, if_false, Bool.false_eq_true]
        simpa [findItemAtPosition, hid] using ih
      · have hb : (!(some id == d)) = true := by simp [hid]
        rw [List.filter_cons]
        simp only [hb, if_true]
        by_cases hc : containsPos r.rect p = true
        · simp [findItemAtPosition, List.find?, hid, hc]
        · simp only [List.find?, hc]
          simpa [findItemAtPosition, hid, hc] using ih
  · intro cfg e p h hnone
    simp [updateDrag, h, hnone]

/-- Witness for C4: on the concrete engine `demoDragging` a pointer move to
`(500, 500)` hits no rectangle, and the session keeps `overIndex = 2`. -/
theorem findItemAtPosition_spec_witness :
    demoDragging.state.isDragging = true ∧
    findItemAtPosition demoDragging.state.draggedId demoDragging.items
      (applyLockAxis (DragConfig.mk none).lockAxis
        demoDragging.state.initialPosition ⟨500, 500⟩) = none ∧
    ((updateDrag ⟨none⟩ demoDragging ⟨500, 500⟩).1).state.overIndex
      = demoDragging.state.overIndex :=
  ⟨rfl, by decide,
    findItemAtPosition_spec.2.2 ⟨none⟩ demoDragging ⟨500, 500⟩ rfl (by decide)⟩

/-!
### C5: when drag-over notifications are emitted

The source emits a drag-over notification on every handled pointer move
for which the hit test finds an item; the `newOverIndex !== state.overIndex`
comparison only gates the haptic pulse, not the notification.
-/

/-- Counterexample to C5 as stated: on the concrete engine `demoOverB`
(already over item `b`, `overIndex = 1`) a pointer move to `(50, 85)` —
still inside item `b` — leaves `overIndex` at its previous value `1`, yet
a drag-over notification is emitted. -/
theorem dragOver_unchanged_counterexample :
    ((updateDrag ⟨none⟩ demoOverB ⟨50, 85⟩).1).state.overIndex
        = demoOverB.state.overIndex ∧
    DragEvent.dragOver "a" 0 1 "b" ∈ (updateDrag ⟨none⟩ demoOverB ⟨50, 85⟩).2 := by
  constructor
  · decide
  · decide

/-- C5 amended: during an active drag, a pointer move emits a drag-over
notification exactly when the hit test finds an item under the (locked)
position — regardless of whether `overIndex` changed; only the haptic
pulse is gated on the index change. -/
theorem dragOver_emitted_iff_hit (cfg : DragConfig) (e : Engine) (p : Position)
    (h : e.state.isDragging = true) :
    (updateDrag cfg e p).2.any DragEvent.isDragOver = true ↔
      findItemAtPosition e.state.draggedId e.items
        (applyLockAxis cfg.lockAxis e.state.initialPosition p) ≠ none := by
  rcases hh : findItemAtPosition e.state.draggedId e.items
      (applyLockAxis cfg.lockAxis e.state.initialPosition p) with _ | oi <;>
    simp [updateDrag, h, hh, DragEvent.isDragOver]

/-- Witness for C5 (amended) on the concrete engine `demoOverB` at
`(50, 85)`: the hit test finds item `b`, so a drag-over is emitted. -/
theorem dragOver_emitted_iff_hit_witness :
    (updateDrag ⟨none⟩ demoOverB ⟨50, 85⟩).2.any DragEvent.isDragOver = true :=
  (dragOver_emitted_iff_hit ⟨none⟩ demoOverB ⟨50, 85⟩ rfl).mpr (by decide)

/-!
### C6: which coordinate the axis lock pins

The source pins the other coordinate: with `lockAxis === "x"` the final
position is `{...position, y: initialPosition.y}` — x keeps following the
pointer and y is pinned — and symmetrically for `"y"`. Movement is locked
to the named axis, not of the named axis.
-/

/-- Counterexample to C6 as stated: on a session activated at `(50, 25)`
with `lockAxis = "x"`, a pointer move to `(70, 130)` yields
`currentPosition = (70, 25)`: the x coordinate followed the pointer to 70
instead of staying pinned at its activation-time value 50 (the y
coordinate is the pinned one). -/
theorem lockAxis_pins_x_counterexample :
    ((updateDrag ⟨some Axis.x⟩ demoDragging ⟨70, 130⟩).1).state.currentPosition
        = some ⟨70, 25⟩ ∧
    demoDragging.state.initialPosition = some ⟨50, 25⟩ ∧
    (70 : ℚ) ≠ 50 := by
  refine ⟨by decide, rfl, by norm_num⟩

/-- C6 amended: with `lockAxis = "x"` every handled pointer move pins the
**y** coordinate of `currentPosition` to its activation-time value while
x follows the pointer; with `lockAxis = "y"` the **x** coordinate is
pinned and y follows the pointer. -/
theorem lockAxis_spec (cfg : DragConfig) (e : Engine) (p ip : Position)
    (h : e.state.isDragging = true) (hip : e.state.initialPosition = some ip) :
    (cfg.lockAxis = some Axis.x →
      ((updateDrag cfg e p).1).state.currentPosition = some ⟨p.x, ip.y⟩) ∧
    (cfg.lockAxis = some Axis.y →
      ((updateDrag cfg e p).1).state.currentPosition = some ⟨ip.x, p.y⟩) := by
  constructor <;> intro hl <;> simp [updateDrag, h, applyLockAxis, hl, hip]

/-- Witness for C6 (amended) on the concrete engine `demoDragging`
(activated at `(50, 25)`): with `lockAxis = "x"` a move to `(70, 130)`
stores `currentPosition = (70, 25)`. -/
theorem lockAxis_spec_witness :
    ((updateDrag ⟨some Axis.x⟩ demoDragging ⟨70, 130⟩).1).state.currentPosition
      = some ⟨70, 25⟩ :=
  (lockAxis_spec ⟨some Axis.x⟩ demoDragging ⟨70, 130⟩ ⟨50, 25⟩ rfl rfl).1 rfl

/-!
### C7: no fail-safe when the dragged record vanishes mid-gesture

`unregisterItem` only deletes the registry entry; neither it nor
`endDrag` consults the registry for the dragged id, and nothing cancels
the session. The following theorem evaluates the failing scenario: item
`a` is picked up, dragged over item `c`, its record is unregistered
mid-gesture, and the subsequent pointer-up still commits
`dragEnd "a" 0 2 false` — a reorder instruction referencing the vanished
item, with `cancelled = false` and `toIndex ≠ fromIndex`. -/

/-- C7 failing input, evaluated: after mid-gesture unregistration of the
dragged item the registry no longer holds `"a"`, the session still
references it, and a plain pointer-up commits the reorder instead of
cancelling. -/
theorem unregister_midgesture_commits :
    (demoVanished.items.map Prod.fst).contains "a" = false ∧
    demoVanished.state.isDragging = true ∧
    demoVanished.state.draggedId = some "a" ∧
    (endDrag demoVanished false).2 = [DragEvent.dragEnd "a" 0 2 false] := by
  refine ⟨by decide, by decide, by decide, by decide⟩

/-!
### C8: a second `startDrag` is not ignored while a gesture is active

Neither `handlePointerDown` in `useSortable` nor `startDrag` in the
provider checks `state.isDragging`, so a pointer-down on another item
while a gesture is active schedules a second activation, and when it
fires, `startDrag` overwrites every field of the session with the new
item in one update and emits a second drag-start notification. -/

/-- C8 failing input, evaluated: with the session dragging item `a`
(`demoStarted`), `startDrag` for item `b` is not ignored — it overwrites
`draggedId`, `draggedIndex`, `overIndex` and `initialIndexRef` with the
values of `b` and emits a second drag-start. -/
theorem startDrag_overwrites_active_session :
    demoStarted.state.isDragging = true ∧
    demoStarted.state.draggedId = some "a" ∧
    ((startDrag demoStarted "b" 1 ⟨50, 85⟩ rectB).1).state.draggedId = some "b" ∧
    ((startDrag demoStarted "b" 1 ⟨50, 85⟩ rectB).1).state.draggedIndex = some 1 ∧
    ((startDrag demoStarted "b" 1 ⟨50, 85⟩ rectB).1).initialIndexRef = some 1 ∧
    (startDrag demoStarted "b" 1 ⟨50, 85⟩ rectB).2 = [DragEvent.dragStart "b" 1] := by
  refine ⟨by decide, by decide, by decide, by decide, by decide, by decide⟩

/-!
### C2: displacement of non-dragged items
-/

/-- Characterization of the displacement direction decision. -/
theorem displacementDir_cases (o v i : Int) :
    (displacementDir o v i = -1 ↔ o < v ∧ o < i ∧ i ≤ v) ∧
    (displacementDir o v i = 1 ↔ v < o ∧ v ≤ i ∧ i < o) ∧
    (displacementDir o v i = 0 ↔
      ¬(o < v ∧ o < i ∧ i ≤ v) ∧ ¬(v < o ∧ v ≤ i ∧ i < o)) := by
  unfold displacementDir
  split_ifs <;> norm_num <;> omega

/-- The displacement direction only takes the values `-1`, `0`, `1`. -/
theorem displacementDir_mem (o v i : Int) :
    displacementDir o v i = -1 ∨ displacementDir o v i = 0 ∨
      displacementDir o v i = 1 := by
  unfold displacementDir
  split_ifs <;> norm_num

/-- The three mutually exclusive outcomes of `localTransform`, as
equivalences over the index conditions (for a nonnegative dragged
height, so that the backward and forward offsets differ). -/
theorem localTransform_iff (o v i : Int) (hgt : ℚ) (hpos : 0 ≤ hgt) :
    (localTransform o (some v) i hgt = some ⟨0, -(hgt + 16)⟩ ↔
      o < v ∧ o < i ∧ i ≤ v) ∧
    (localTransform o (some v) i hgt = some ⟨0, hgt + 16⟩ ↔
      v < o ∧ v ≤ i ∧ i < o) ∧
    (localTransform o (some v) i hgt = none ↔
      ¬(o < v ∧ o < i ∧ i ≤ v) ∧ ¬(v < o ∧ v ≤ i ∧ i < o)) := by
  obtain ⟨hA, hB, hC⟩ := displacementDir_cases o v i
  have h16 : (0 : ℚ) < hgt + 16 := by linarith
  have hval : localTransform o (some v) i hgt =
      if displacementDir o v i = 0 then none
      else some ⟨0, (displacementDir o v i : ℚ) * (hgt + 16)⟩ := rfl
  rcases displacementDir_mem o v i with hd | hd | hd
  · have hcond := hA.mp hd
    rw [hval, hd]
    simp only [if_neg (by decide : ¬(-1 : Int) = 0), Int.cast_neg, Int.cast_one,
      Option.some.injEq, Position.mk.injEq, true_and]
    refine ⟨iff_of_true (by ring) hcond, iff_of_false ?_ ?_, iff_of_false (by simp) ?_⟩
    · intro hEq; linarith
    · intro hc2
      have h1 := hB.mpr hc2
      rw [hd] at h1
      exact absurd h1 (by decide)
    · intro hn
      exact hn.1 hcond
  · have hcond := hC.mp hd
    rw [hval, hd]
    simp only [if_pos rfl]
    refine ⟨iff_of_false (by simp) ?_, iff_of_false (by simp) ?_,
      iff_of_true rfl hcond⟩
    · intro hc
      have h1 := hA.mpr hc
      rw [hd] at h1
      exact absurd h1 (by decide)
    · intro hc
      have h1 := hB.mpr hc
      rw [hd] at h1
      exact absurd h1 (by decide)
  · have hcond := hB.mp hd
    rw [hval, hd]
    simp only [if_neg (by decide : ¬(1 : Int) = 0), Int.cast_one,
      Option.some.injEq, Position.mk.injEq, true_and]
    refine ⟨iff_of_false ?_ ?_, iff_of_true (by ring) hcond, iff_of_false (by simp) ?_⟩
    · intro hEq; linarith
    · intro hc1
      have h1 := hA.mpr hc1
      rw [hd] at h1
      exact absurd h1 (by decide)
    · intro hn
      exact hn.2 hcond

/-- C2: a non-dragged item at `index` is shifted backward by one
dragged-item extent (the dragged element height plus the 16px gap)
exactly when `originIndex < overIndex` and
`originIndex < index ≤ overIndex`, shifted forward by one extent exactly
when `originIndex > overIndex` and `overIndex ≤ index < originIndex`,
and unshifted otherwise; the result is a pure function of
`(originIndex, overIndex, index, draggedExtent)`. In particular, for five
items, dragging index 1 to `overIndex` 3 shifts exactly the items at
indices 2 and 3 backward, and dragging index 3 to `overIndex` 1 shifts
exactly the items at indices 1 and 2 forward. -/
theorem displacement_spec (o v i : Int) (hgt : ℚ) (hpos : 0 ≤ hgt) :
    (localTransform o (some v) i hgt = some ⟨0, -(hgt + 16)⟩ ↔
      o < v ∧ o < i ∧ i ≤ v) ∧
    (localTransform o (some v) i hgt = some ⟨0, hgt + 16⟩ ↔
      v < o ∧ v ≤ i ∧ i < o) ∧
    (localTransform o (some v) i hgt = none ↔
      ¬(o < v ∧ o < i ∧ i ≤ v) ∧ ¬(v < o ∧ v ≤ i ∧ i < o)) ∧
    (localTransform 1 (some 3) 2 hgt = some ⟨0, -(hgt + 16)⟩ ∧
      localTransform 1 (some 3) 3 hgt = some ⟨0, -(hgt + 16)⟩ ∧
      localTransform 1 (some 3) 0 hgt = none ∧
      localTransform 1 (some 3) 4 hgt = none) ∧
    (localTransform 3 (some 1) 1 hgt = some ⟨0, hgt + 16⟩ ∧
      localTransform 3 (some 1) 2 hgt = some ⟨0, hgt + 16⟩ ∧
      localTransform 3 (some 1) 0 hgt = none ∧
      localTransform 3 (some 1) 4 hgt = none) := by
  obtain ⟨g1, g2, g3⟩ := localTransform_iff o v i hgt hpos
  refine ⟨g1, g2, g3, ⟨?_, ?_, ?_, ?_⟩, ⟨?_, ?_, ?_, ?_⟩⟩
  · exact (localTransform_iff 1 3 2 hgt hpos).1.mpr (by omega)
  · exact (localTransform_iff 1 3 3 hgt hpos).1.mpr (by omega)
  · exact (localTransform_iff 1 3 0 hgt hpos).2.2.mpr (by omega)
  · exact (localTransform_iff 1 3 4 hgt hpos).2.2.mpr (by omega)
  · exact (localTransform_iff 3 1 1 hgt hpos).2.1.mpr (by omega)
  · exact (localTransform_iff 3 1 2 hgt hpos).2.1.mpr (by omega)
  · exact (localTransform_iff 3 1 0 hgt hpos).2.2.mpr (by omega)
  · exact (localTransform_iff 3 1 4 hgt hpos).2.2.mpr (by omega)

/-- Witness for C2 at a concrete dragged height of 50px: the extent is
66px, items 2 and 3 move up by 66 when dragging 1 over 3, item 1 moves
down by 66 when dragging 3 over 1, and item 0 never moves. -/
theorem displacement_spec_witness :
    (0 : ℚ) ≤ 50 ∧
    localTransform 1 (some 3) 2 50 = some ⟨0, -(50 + 16)⟩ ∧
    localTransform 3 (some 1) 1 50 = some ⟨0, 50 + 16⟩ ∧
    localTransform 1 (some 3) 0 50 = none :=
  ⟨by norm_num,
    (displacement_spec 0 0 0 50 (by norm_num)).2.2.2.1.1,
    (displacement_spec 0 0 0 50 (by norm_num)).2.2.2.2.1,
    (displacement_spec 0 0 0 50 (by norm_num)).2.2.2.1.2.2.1⟩

/-!
### C3: auto-scroll speed formula and monotonicity
-/

/-- Within the threshold the triggered edge branch yields the min/max
formula. -/
theorem edgeScrollSpeed_of_lt {threshold maxSpeed acceleration d : ℚ}
    (h : d < threshold) :
    edgeScrollSpeed threshold maxSpeed acceleration true d =
      min maxSpeed
        (max (1 / 10) (if d ≤ 0 then 1 else 1 - d / threshold) *
          maxSpeed * acceleration) := by
  unfold edgeScrollSpeed
  rw [if_pos ⟨h, rfl⟩]

/-- At or beyond the threshold the edge does not trigger and the branch
contributes zero. -/
theorem edgeScrollSpeed_of_ge {threshold maxSpeed acceleration d : ℚ}
    (c : Bool) (h : ¬d < threshold) :
    edgeScrollSpeed threshold maxSpeed acceleration c d = 0 := by
  unfold edgeScrollSpeed
  rw [if_neg]
  intro hc
  exact h hc.1

/-- The per-edge magnitude is nonnegative at the default configuration. -/
theorem edgeScrollSpeed_nonneg (c : Bool) (d : ℚ) :
    0 ≤ edgeScrollSpeed 80 15 (3 / 2) c d := by
  unfold edgeScrollSpeed
  by_cases hc : d < 80 ∧ c = true
  · rw [if_pos hc]
    apply le_min (by norm_num)
    have hmax : (1 / 10 : ℚ) ≤ max (1 / 10) (if d ≤ 0 then 1 else 1 - d / 80) :=
      le_max_left _ _
    set I := max (1 / 10 : ℚ) (if d ≤ 0 then 1 else 1 - d / 80) with hI
    linarith
  · rw [if_neg hc]

/-- C3: for `threshold = 80`, `maxSpeed = 15`, `acceleration = 1.5` and an
edge the container can still scroll toward, the per-edge speed magnitude
within the threshold equals
`min(maxSpeed, max(0.1, intensity) * maxSpeed * acceleration)` with
`intensity = 1` at distance ≤ 0 and `1 - distance / threshold` beyond; it
is non-increasing in the distance on `[0, ∞)`, and exactly 0 at every
distance ≥ 80. -/
theorem autoScroll_speed_spec :
    (∀ d : ℚ, d < 80 →
      edgeScrollSpeed 80 15 (3 / 2) true d =
        min 15 (max (1 / 10) (if d ≤ 0 then 1 else 1 - d / 80) * 15 * (3 / 2))) ∧
    (∀ d1 d2 : ℚ, 0 ≤ d1 → d1 ≤ d2 →
      edgeScrollSpeed 80 15 (3 / 2) true d2 ≤ edgeScrollSpeed 80 15 (3 / 2) true d1) ∧
    (∀ d : ℚ, 80 ≤ d → edgeScrollSpeed 80 15 (3 / 2) true d = 0) := by
  refine ⟨?_, ?_, ?_⟩
  · intro d hd
    exact edgeScrollSpeed_of_lt hd
  · intro d1 d2 h0 h12
    by_cases h2 : d2 < 80
    · have h1 : d1 < 80 := lt_of_le_of_lt h12 h2
      rw [edgeScrollSpeed_of_lt h1, edgeScrollSpeed_of_lt h2]
      apply min_le_min le_rfl
      apply mul_le_mul_of_nonneg_right _ (by norm_num)
      apply mul_le_mul_of_nonneg_right _ (by norm_num)
      apply max_le_max le_rfl
      by_cases hz2 : d2 ≤ 0
      · have hz1 : d1 ≤ 0 := le_trans h12 hz2
        simp [hz1, hz2]
      · by_cases hz1 : d1 ≤ 0
        · simp only [if_pos hz1, if_neg hz2]
          have hpos2 : 0 < d2 := lt_of_not_le hz2
          linarith
        · simp only [if_neg hz1, if_neg hz2]
          linarith
    · rw [edgeScrollSpeed_of_ge true h2]
      exact edgeScrollSpeed_nonneg true d1
  · intro d hd
    exact edgeScrollSpeed_of_ge true (not_lt.mpr hd)

/-- Witness for C3 at concrete distances: the formula at distance 40, the
monotone comparison between 40 and 60, and the zero at distance 100. -/
theorem autoScroll_speed_spec_witness :
    edgeScrollSpeed 80 15 (3 / 2) true 40 =
      min 15 (max (1 / 10) (if (40 : ℚ) ≤ 0 then 1 else 1 - 40 / 80) * 15 * (3 / 2)) ∧
    edgeScrollSpeed 80 15 (3 / 2) true 60 ≤ edgeScrollSpeed 80 15 (3 / 2) true 40 ∧
    edgeScrollSpeed 80 15 (3 / 2) true 100 = 0 :=
  ⟨autoScroll_speed_spec.1 40 (by norm_num),
    autoScroll_speed_spec.2.1 40 60 (by norm_num) (by norm_num),
    autoScroll_speed_spec.2.2 100 (by norm_num)⟩

end IonicDnd
